import Mathlib

/-!
Shallow embedding of the trim-player logic of `src/app/components/VideoPlayer.tsx`
(youtube-dashboard). JavaScript numbers are modelled as rationals (ℚ); the
arithmetic used by the component (division by 100, multiplication, comparison,
min/max, ±5) is exact on the values involved. Engine calls (seekTo, playVideo,
pauseVideo) are modelled as a list of emitted commands, in emission order.
-/

/-- A trim range as stored per video: percentages of the total duration.
Mirrors the object serialized at VideoPlayer.tsx lines 271-274. -/
structure TrimRange where
  start : ℚ
  «end» : ℚ
deriving DecidableEq, Repr

/-- Which slider handle a drag gesture has captured (`isDraggingState`). -/
inductive DragHandle where
  | left
  | right
deriving DecidableEq, Repr

/-- Commands the component issues to the playback engine instance. -/
inductive EngineCmd where
  | seekTo : ℚ → EngineCmd
  | play
  | pause
deriving DecidableEq, Repr

/-- The pointer-position clamp described by the spec: the raw track fraction is
first constrained to the interval [0,100]. -/
def clampPosition (p : ℚ) : ℚ := max 0 (min 100 p)

/-- One drag move (`handleMouseMove`, VideoPlayer.tsx lines 240-265): the raw
percentage position is constrained with `Math.max(0, Math.min(100, p))`; a left
drag then sets trimStart to `Math.min(p, trimEnd - 5)`, a right drag sets
trimEnd to `Math.max(p, trimStart + 5)`. Returns the (trimStart, trimEnd) pair
after the move. -/
def handleMouseMove (side : DragHandle) (raw trimStart trimEnd : ℚ) : ℚ × ℚ :=
  let newPosition := max 0 (min 100 raw)
  match side with
  | .left => (min newPosition (trimEnd - 5), trimEnd)
  | .right => (trimStart, max newPosition (trimStart + 5))

/-- A whole drag sequence: fold `handleMouseMove` over a list of
(handle, raw position) move events. -/
def applyMoves (moves : List (DragHandle × ℚ)) (st : ℚ × ℚ) : ℚ × ℚ :=
  moves.foldl (fun s m => handleMouseMove m.1 m.2 s.1 s.2) st

/-- The localStorage key written on drag release
(template literal at VideoPlayer.tsx line 270). -/
def saveKey (videoId : String) : String := "yt-trim-" ++ videoId

/-- The localStorage key read on selection change
(template literal at VideoPlayer.tsx line 118). -/
def loadKey (videoId : String) : String := "yt-trim-" ++ videoId

/-- localStorage restricted to trim entries, with the JSON text modelled by the
parsed TrimRange it denotes (JSON.stringify/JSON.parse round-trips finite JS
numbers exactly). `setItem` prepends; `getItem` is first-match lookup, so the
newest write wins, matching last-writer-wins overwrite semantics. -/
abbrev TrimStore := List (String × TrimRange)

/-- `localStorage.setItem(saveKey id, JSON.stringify(r))` as performed on drag
release (VideoPlayer.tsx lines 269-275). -/
def saveTrim (st : TrimStore) (videoId : String) (r : TrimRange) : TrimStore :=
  (saveKey videoId, r) :: st

/-- `localStorage.getItem(loadKey id)` followed by a successful parse, as
performed on selection change (VideoPlayer.tsx line 118). -/
def loadTrimStore (st : TrimStore) (videoId : String) : Option TrimRange :=
  st.lookup (loadKey videoId)

/-- The object `JSON.parse` hands back after destructuring `const (start, end)`:
either field may be absent (JavaScript `undefined`), modelled as `none`. -/
structure JsObj where
  start : Option ℚ
  «end» : Option ℚ
deriving DecidableEq, Repr

/-- The trim-loading part of the selection-change effect (VideoPlayer.tsx lines
114-126), abstracted over the behaviour of `JSON.parse` (`parse`, which either
throws — `Except.error` — or returns an object). `stored` is
`localStorage.getItem(..)`: `none` models null. The source initializes
startTrim = 0 and endTrim = 100, overwrites them from the parsed object only
when `savedTrim` is truthy (non-null and non-empty), and contains no try/catch,
so a parse exception propagates. -/
def loadTrimEffect (parse : String → Except String JsObj) (stored : Option String) :
    Except String (Option ℚ × Option ℚ) :=
  match stored with
  | none => .ok (some 0, some 100)
  | some s =>
    if s = "" then .ok (some 0, some 100)
    else
      match parse s with
      | .error e => .error e
      | .ok obj => .ok (obj.start, obj.«end»)

/-- One tick of the 200ms playback poll (`startTimeUpdate`, VideoPlayer.tsx
lines 176-199), projected onto the engine commands it issues. `hasPlayer` is
whether `playerInstance.current` is non-null; when the drag ref is set the
boundary checks are skipped entirely. -/
def timeUpdateTick (hasPlayer isDragging : Bool) (time duration trimStart trimEnd : ℚ) :
    List EngineCmd :=
  if !hasPlayer then []
  else if isDragging then []
  else
    let trimStartTime := trimStart / 100 * duration
    let trimEndTime := trimEnd / 100 * duration
    if trimEndTime ≤ time then [.seekTo trimStartTime]
    else if time < trimStartTime then [.seekTo trimStartTime]
    else []

/-- `togglePlayPause` (VideoPlayer.tsx lines 209-229), projected onto the
engine commands it issues, in order. While paused it may seek back inside the
trim window before issuing play. -/
def togglePlayPause (hasPlayer isPlaying : Bool) (duration trimStart trimEnd currentPos : ℚ) :
    List EngineCmd :=
  if !hasPlayer then []
  else if isPlaying then [.pause]
  else
    let trimStartTime := trimStart / 100 * duration
    let trimEndTime := trimEnd / 100 * duration
    (if trimEndTime ≤ currentPos then [.seekTo trimStartTime]
     else if currentPos < trimStartTime then [.seekTo trimStartTime]
     else []) ++ [.play]

/-- `handleMouseUp` (VideoPlayer.tsx lines 267-295): when a drag is active and
a video is loaded, persist the current trim pair, then (if the engine instance
exists) reposition: seek to the new start when the position is before it, or
when it is strictly past the new end while playing. Returns the updated store
and the emitted engine commands. -/
def handleMouseUp (isDragging : Option DragHandle) (videoId : Option String)
    (st : TrimStore) (trimStart trimEnd : ℚ) (hasPlayer : Bool)
    (duration currentPosition : ℚ) (isPlaying : Bool) : TrimStore × List EngineCmd :=
  match isDragging, videoId with
  | some _, some id =>
    let st' := saveTrim st id ⟨trimStart, trimEnd⟩
    let cmds :=
      if hasPlayer then
        let trimStartTime := trimStart / 100 * duration
        let trimEndTime := trimEnd / 100 * duration
        if currentPosition < trimStartTime then [EngineCmd.seekTo trimStartTime]
        else if trimEndTime < currentPosition ∧ isPlaying = true then
          [EngineCmd.seekTo trimStartTime]
        else []
      else []
    (st', cmds)
  | _, _ => (st, [])

/-- The `checkDuration` retry chain (VideoPlayer.tsx lines 134-160). `d k` is
what `getDuration()` reports at the k-th check (0 when the instance is null or
not ready). The chain checks attempt `k`; on a positive duration it resolves
with the duration and the computed absolute start time
`trimStart / 100 * duration`, otherwise it schedules a deferred re-check via
`setTimeout(checkDuration, 100)`. `fuel` bounds how many attempts we unfold;
`none` means the chain is still pending (a further re-check scheduled and the
loading state still set) after `fuel` attempts. -/
def checkDurationRun (d : ℕ → ℚ) (trimStart : ℚ) : ℕ → ℕ → Option (ℚ × ℚ)
  | _, 0 => none
  | k, fuel + 1 =>
    if 0 < d k then some (d k, trimStart / 100 * d k)
    else checkDurationRun d trimStart (k + 1) fuel

/-- Whether, after attempts 0..n have all run, the chain has still not resolved
— i.e. attempt n failed too and scheduled yet another deferred re-check,
leaving `isVideoLoading` true. -/
def retryPending (d : ℕ → ℚ) (trimStart : ℚ) (n : ℕ) : Bool :=
  (checkDurationRun d trimStart 0 (n + 1)).isNone

/-! ## Helper lemmas -/

/-- Prefixing two distinct video identifiers with the trim-key prefix keeps
them distinct. -/
lemma trimKey_append_ne (a b : String) (h : a ≠ b) :
    "yt-trim-" ++ a ≠ "yt-trim-" ++ b := by
  intro hc
  apply h
  have hd := congrArg String.data hc
  simp [String.data_append] at hd
  exact String.ext hd

/-- A single drag move re-establishes the 5-point minimum gap outright. -/
lemma handleMouseMove_gap (side : DragHandle) (raw trimStart trimEnd : ℚ) :
    5 ≤ (handleMouseMove side raw trimStart trimEnd).2
      - (handleMouseMove side raw trimStart trimEnd).1 := by
  cases side with
  | left =>
    have hm : min (max 0 (min 100 raw)) (trimEnd - 5) ≤ trimEnd - 5 := min_le_right _ _
    simp only [handleMouseMove]
    linarith
  | right =>
    have hm : trimStart + 5 ≤ max (max 0 (min 100 raw)) (trimStart + 5) := le_max_right _ _
    simp only [handleMouseMove]
    linarith

/-- If every duration probe reports a non-positive value, the retry chain never
resolves, whatever the fuel and starting attempt index. -/
lemma checkDurationRun_none (d : ℕ → ℚ) (trimStart : ℚ) (h : ∀ k, d k ≤ 0) :
    ∀ fuel k, checkDurationRun d trimStart k fuel = none := by
  intro fuel
  induction fuel with
  | zero => intro k; rfl
  | succ n ih =>
    intro k
    have hk : ¬ 0 < d k := not_lt.mpr (h k)
    simp only [checkDurationRun, hk, if_false]
    exact ih (k + 1)

/-- Folding saves whose identifiers all differ from `id` over a store that has
no entry under the key for `id` leaves the lookup for `id` empty. -/
lemma lookup_foldl_saveTrim (id : String) :
    ∀ (saves : List (String × TrimRange)) (acc : TrimStore),
      (∀ p ∈ saves, p.1 ≠ id) → acc.lookup (loadKey id) = none →
      ((saves.foldl (fun a pr => saveTrim a pr.1 pr.2) acc).lookup (loadKey id)) = none := by
  intro saves
  induction saves with
  | nil => intro acc _ hacc; simpa using hacc
  | cons p ps ih =>
    intro acc hne hacc
    have hp : p.1 ≠ id := hne p (List.mem_cons_self p ps)
    have hkey : loadKey id ≠ saveKey p.1 := by
      simpa [loadKey, saveKey] using trimKey_append_ne id p.1 (Ne.symm hp)
    have hb : (loadKey id == saveKey p.1) = false := beq_eq_false_iff_ne.mpr hkey
    have hacc2 : ((saveTrim acc p.1 p.2).lookup (loadKey id)) = none := by
      simp [saveTrim, List.lookup, hb, hacc]
    exact ih (saveTrim acc p.1 p.2) (fun q hq => hne q (List.mem_cons_of_mem p hq)) hacc2

/-! ## Claims -/

/-- C1: saving a trim range for a video identifier (as on drag release) and
then loading for the same identifier (as on selecting that video) yields
exactly the saved range; loading over a store built only from saves for other
identifiers yields none. -/
theorem trim_store_roundtrip (st : TrimStore) (id : String) (r : TrimRange) :
    loadTrimStore (saveTrim st id r) id = some r ∧
    ∀ saves : List (String × TrimRange), (∀ p ∈ saves, p.1 ≠ id) →
      loadTrimStore (saves.foldl (fun acc pr => saveTrim acc pr.1 pr.2) []) id = none := by
  constructor
  · simp [loadTrimStore, saveTrim, saveKey, loadKey, List.lookup]
  · intro saves hne
    exact lookup_foldl_saveTrim id saves [] hne rfl

/-- Witness for C1 at a concrete store, identifier and range. -/
theorem trim_store_roundtrip_witness :
    loadTrimStore (saveTrim [] "abc" ⟨20, 80⟩) "abc" = some ⟨20, 80⟩ ∧
    loadTrimStore ([("other", (⟨1, 99⟩ : TrimRange))].foldl
      (fun acc pr => saveTrim acc pr.1 pr.2) []) "abc" = none := by
  refine ⟨(trim_store_roundtrip [] "abc" ⟨20, 80⟩).1, ?_⟩
  refine (trim_store_roundtrip [] "abc" ⟨20, 80⟩).2 _ ?_
  intro p hp
  simp only [List.mem_singleton] at hp
  subst hp
  decide

/-- C2: for every drag sequence (both handles, arbitrary raw pointer
positions), if the 5-point minimum gap held before, it holds again after every
intermediate move, not only at release. -/
theorem drag_min_gap_invariant (s : ℚ × ℚ) (moves : List (DragHandle × ℚ))
    (h : 5 ≤ s.2 - s.1) :
    5 ≤ (applyMoves moves s).2 - (applyMoves moves s).1 := by
  induction moves generalizing s with
  | nil => simpa [applyMoves] using h
  | cons m ms ih =>
    have hstep := handleMouseMove_gap m.1 m.2 s.1 s.2
    have : applyMoves (m :: ms) s = applyMoves ms (handleMouseMove m.1 m.2 s.1 s.2) := rfl
    rw [this]
    exact ih _ hstep

/-- Witness for C2: a two-move drag starting from the default range. -/
theorem drag_min_gap_invariant_witness :
    5 ≤ ((100 : ℚ) - 0) ∧
    5 ≤ (applyMoves [(DragHandle.left, 99), (DragHandle.right, 1)] (0, 100)).2
      - (applyMoves [(DragHandle.left, 99), (DragHandle.right, 1)] (0, 100)).1 :=
  ⟨by norm_num, drag_min_gap_invariant (0, 100) _ (by norm_num)⟩

/-- C3: a drag move first clamps the raw position to [0,100]; a left drag then
takes the minimum with trimEnd - 5 and a right drag the maximum with
trimStart + 5; in particular a left drag to raw position 85 while trimEnd = 80
sets trimStart to 75. -/
theorem drag_clamp_formula :
    (∀ raw trimStart trimEnd : ℚ, handleMouseMove .left raw trimStart trimEnd
        = (min (clampPosition raw) (trimEnd - 5), trimEnd)) ∧
    (∀ raw trimStart trimEnd : ℚ, handleMouseMove .right raw trimStart trimEnd
        = (trimStart, max (clampPosition raw) (trimStart + 5))) ∧
    ∀ trimStart : ℚ, handleMouseMove .left 85 trimStart 80 = (75, 80) := by
  refine ⟨fun raw ts te => rfl, fun raw ts te => rfl, fun ts => ?_⟩
  simp only [handleMouseMove]
  norm_num

/-- C4: on a poll tick while playing, an active drag suppresses every seek;
otherwise reaching or passing the trim end seeks back to the trim start, and
being before the trim start seeks forward to it; at time 80.1s with range
(20, 80) and duration 100s the engine receives seekTo 20. -/
theorem tick_boundary_enforcement :
    (∀ time duration trimStart trimEnd : ℚ,
        timeUpdateTick true true time duration trimStart trimEnd = []) ∧
    (∀ time duration trimStart trimEnd : ℚ,
        trimEnd / 100 * duration ≤ time →
        timeUpdateTick true false time duration trimStart trimEnd
          = [.seekTo (trimStart / 100 * duration)]) ∧
    (∀ time duration trimStart trimEnd : ℚ,
        time < trimStart / 100 * duration →
        timeUpdateTick true false time duration trimStart trimEnd
          = [.seekTo (trimStart / 100 * duration)]) ∧
    timeUpdateTick true false (801 / 10) 100 20 80 = [.seekTo 20] := by
  refine ⟨fun t D ts te => rfl, fun t D ts te h => ?_, fun t D ts te h => ?_, ?_⟩
  · simp [timeUpdateTick, h]
  · simp only [timeUpdateTick, Bool.not_true, Bool.false_eq_true, if_false,
      Bool.not_false, if_true]
    split_ifs <;> rfl
  · norm_num [timeUpdateTick]

/-- Witness for C4 at concrete tick inputs. -/
theorem tick_boundary_enforcement_witness :
    timeUpdateTick true true 50 100 20 80 = [] ∧
    timeUpdateTick true false 90 100 20 80 = [.seekTo (20 / 100 * 100)] ∧
    timeUpdateTick true false 5 100 20 80 = [.seekTo (20 / 100 * 100)] :=
  ⟨tick_boundary_enforcement.1 50 100 20 80,
   tick_boundary_enforcement.2.1 90 100 20 80 (by norm_num),
   tick_boundary_enforcement.2.2.1 5 100 20 80 (by norm_num)⟩

/-- C5 counterexample: the duration retry chain is not bounded. For the
concrete engine whose getDuration always reports 0 there is no attempt count
after which the chain stops scheduling further deferred re-checks: a re-check
is still pending after every attempt. -/
theorem checkDuration_bounded_cex :
    ¬ ∃ B : ℕ, ∀ n : ℕ, B ≤ n → retryPending (fun _ => 0) 0 n = false := by
  rintro ⟨B, h⟩
  have hfalse := h B le_rfl
  have htrue : retryPending (fun _ => 0) 0 B = true := by
    unfold retryPending
    rw [checkDurationRun_none (fun _ => 0) 0 (fun _ => le_refl 0)]
    rfl
  rw [htrue] at hfalse
  exact Bool.noConfusion hfalse

/-- C5 amended: each failed duration check schedules one deferred re-check
(never blocking the caller), with no retry bound: for every engine whose
getDuration never returns a positive value the chain never resolves — after
every attempt another re-check is pending and the loading state persists. -/
theorem checkDuration_retries_forever (d : ℕ → ℚ) (trimStart : ℚ)
    (h : ∀ k, d k ≤ 0) (n : ℕ) : retryPending d trimStart n = true := by
  unfold retryPending
  rw [checkDurationRun_none d trimStart h]
  rfl

/-- Witness for the amended C5 at the always-zero engine. -/
theorem checkDuration_retries_forever_witness :
    retryPending (fun _ => 0) 0 3 = true :=
  checkDuration_retries_forever (fun _ => 0) 0 (fun _ => le_refl 0) 3

/-- C6 counterexample: a stored value on which JSON.parse throws does not fall
back to the default range — the selection-change trim loading propagates the
parse error instead of recovering to (0, 100). -/
theorem corrupt_trim_fallback_cex :
    loadTrimEffect (fun _ => .error "SyntaxError") (some "corrupt") = .error "SyntaxError" ∧
    loadTrimEffect (fun _ => .error "SyntaxError") (some "corrupt")
      ≠ .ok (some 0, some 100) := by
  constructor
  · rfl
  · simp [loadTrimEffect]

/-- C6 amended: the default range (0, 100) is applied only when no value (or
an empty value) is stored under the video's trim key; a stored value on which
the parse throws is not caught, and the error propagates out of the
selection-change trim loading. -/
theorem trim_parse_failure_propagates (parse : String → Except String JsObj) :
    loadTrimEffect parse none = .ok (some 0, some 100) ∧
    loadTrimEffect parse (some "") = .ok (some 0, some 100) ∧
    ∀ s e, s ≠ "" → parse s = .error e → loadTrimEffect parse (some s) = .error e := by
  refine ⟨rfl, rfl, fun s e hs hp => ?_⟩
  simp [loadTrimEffect, hs, hp]

/-- Witness for the amended C6 at a concrete failing parse. -/
theorem trim_parse_failure_propagates_witness :
    loadTrimEffect (fun _ => .error "E") none = .ok (some 0, some 100) ∧
    loadTrimEffect (fun _ => .error "E") (some "x") = .error "E" :=
  ⟨(trim_parse_failure_propagates (fun _ => .error "E")).1,
   (trim_parse_failure_propagates (fun _ => .error "E")).2.2 "x" "E"
     (by decide) rfl⟩

/-- C7: issuing the play command while paused (engine present, duration
positive) seeks to the trim start time exactly when the current position lies
outside the half-open window from trim start to trim end, and then issues
play; inside the window it issues play alone. -/
theorem play_while_paused_seeks_iff_outside
    (duration trimStart trimEnd currentPos : ℚ) (_hD : 0 < duration) :
    togglePlayPause true false duration trimStart trimEnd currentPos =
      if currentPos < trimStart / 100 * duration
          ∨ trimEnd / 100 * duration ≤ currentPos then
        [.seekTo (trimStart / 100 * duration), .play]
      else [.play] := by
  simp only [togglePlayPause, Bool.not_true, Bool.false_eq_true, if_false]
  split_ifs with h1 h2 h3 h3 <;> first | rfl | (exfalso; tauto)

/-- Witness for C7 at a position inside the trim window. -/
theorem play_while_paused_seeks_iff_outside_witness :
    togglePlayPause true false 100 20 80 50 = [.play] := by
  have h := play_while_paused_seeks_iff_outside 100 20 80 50 (by norm_num)
  norm_num at h
  exact h

/-- C8 counterexample: on drag release with playback not active, the code does
issue a seek when the current position is before the new trim start — at range
(20, 80), duration 100 and position 0 while paused, seekTo 20 is emitted, where
the claim predicts no seek without active playback. -/
theorem mouseup_paused_seek_cex :
    (handleMouseUp (some .left) (some "v") [] 20 80 true 100 0 false).2
      = [.seekTo (20 / 100 * 100)] ∧
    (handleMouseUp (some .left) (some "v") [] 20 80 true 100 0 false).2
      ≠ ([] : List EngineCmd) := by
  constructor
  · simp only [handleMouseUp]
    norm_num
  · simp only [handleMouseUp]
    norm_num

/-- C8 amended: on drag release with an active video identifier the resulting
range is persisted keyed by that identifier, and a seek to the new trim start
time is issued exactly when the current position is before the new start
(regardless of playback state), or strictly past the new end while playback is
active. -/
theorem mouseup_persists_and_repositions (side : DragHandle) (id : String)
    (st : TrimStore) (trimStart trimEnd duration currentPosition : ℚ)
    (isPlaying : Bool) :
    (handleMouseUp (some side) (some id) st trimStart trimEnd true duration
        currentPosition isPlaying).1 = saveTrim st id ⟨trimStart, trimEnd⟩ ∧
    (handleMouseUp (some side) (some id) st trimStart trimEnd true duration
        currentPosition isPlaying).2
      = if currentPosition < trimStart / 100 * duration
            ∨ (trimEnd / 100 * duration < currentPosition ∧ isPlaying = true) then
          [.seekTo (trimStart / 100 * duration)]
        else [] := by
  refine ⟨rfl, ?_⟩
  simp only [handleMouseUp, if_true]
  split_ifs with h1 h2 h3 h3 <;> first | rfl | (exfalso; tauto)

/-- C9 counterexample: the persistence key is not of the form trim-videoId —
for videoId abc both the save key and the load key are yt-trim-abc. -/
theorem trim_key_format_cex :
    saveKey "abc" ≠ "trim-" ++ "abc" ∧ loadKey "abc" ≠ "trim-" ++ "abc" ∧
    saveKey "abc" = "yt-trim-abc" ∧ loadKey "abc" = "yt-trim-abc" := by
  refine ⟨?_, ?_, rfl, rfl⟩ <;> decide

/-- C9 amended: both the save on drag release and the load on video selection
use the key yt-trim-videoId, and the value stored under it is the serialized
TrimRange object with the released start and end. -/
theorem trim_key_format (id : String) (st : TrimStore) (side : DragHandle)
    (trimStart trimEnd duration currentPosition : ℚ) (isPlaying : Bool) :
    saveKey id = "yt-trim-" ++ id ∧ loadKey id = "yt-trim-" ++ id ∧
    (handleMouseUp (some side) (some id) st trimStart trimEnd true duration
        currentPosition isPlaying).1
      = ("yt-trim-" ++ id, (⟨trimStart, trimEnd⟩ : TrimRange)) :: st ∧
    loadTrimStore st id = st.lookup ("yt-trim-" ++ id) :=
  ⟨rfl, rfl, rfl, rfl⟩

/-- C10: a stored pair that parses successfully is applied verbatim on
selection: trimStart and trimEnd are set to exactly the stored start and end
values, with no validation or clamping re-establishing the range or gap
invariants. -/
theorem parsed_trim_applied_verbatim (parse : String → Except String JsObj)
    (s : String) (a b : ℚ) (hs : s ≠ "")
    (hp : parse s = .ok ⟨some a, some b⟩) :
    loadTrimEffect parse (some s) = .ok (some a, some b) := by
  simp [loadTrimEffect, hs, hp]

/-- Witness for C10 at stored values far outside the valid range — start 200,
end -50 are applied verbatim, violating both bounds and the minimum gap. -/
theorem parsed_trim_applied_verbatim_witness :
    loadTrimEffect (fun _ => .ok ⟨some 200, some (-50)⟩) (some "x")
      = .ok (some 200, some (-50)) :=
  parsed_trim_applied_verbatim (fun _ => .ok ⟨some 200, some (-50)⟩) "x" 200 (-50)
    (by decide) rfl
